import Mathlib

/-!
# Verification of the clarity-decode dispatcher

Shallow embedding of `src/packages/clarity-decode/src/clarity.ts` (the decode
dispatcher and its version gate) together with the wire-format types from
`src/packages/clarity-js/types/data.d.ts`.

Modelling conventions:
* A JavaScript number that can be `NaN` is modelled as `Option Int`
  (`none` = `NaN`); every claim-relevant numeric value in the source is
  integral, so `Int` suffices.
* Strings are Lean `String`s; indexing/length is per character. String
  splitting is implemented on `List Char` exactly as JavaScript
  `String.prototype.split` behaves for the non-empty separators used by the
  source (`"."` and `"-b"`).
* `Array.prototype.sort` with the comparator `(a, b) => a[0] - b[0]` is, per
  the ECMAScript specification, a stable sort; it is modelled by a stable
  insertion sort (`stableSort`), with the comparator translated literally.
* `throw` is modelled by `Except`: `decode` returns `Except DecodeError
  DecodedPayload` instead of throwing.
* `Date.now()` is modelled as an explicit argument `now` of `decode`.
* `console.error` (a logging side effect) has no observable effect on the
  returned value and is not modelled.
-/

/-- A JavaScript number that may be `NaN`: `none` models `NaN`,
`some n` models the integer `n`. All numbers handled by the decoder's
control flow are integral. -/
abbrev JSNum := Option Int

/-- JavaScript strict inequality `x !== y` on numbers: `NaN !== z` is true
for every `z` (including `NaN` itself). -/
def jsStrictNe (x y : JSNum) : Bool :=
  match x, y with
  | some a, some b => a ≠ b
  | _, _ => true

/-- JavaScript subtraction on numbers: any operation involving `NaN`
yields `NaN`. -/
def jsSub (x y : JSNum) : JSNum :=
  match x, y with
  | some a, some b => some (a - b)
  | _, _ => none

/-- JavaScript `Math.abs`: `Math.abs(NaN)` is `NaN`. -/
def jsAbs (x : JSNum) : JSNum :=
  x.map (fun n => |n|)

/-- JavaScript `>` on numbers: any comparison with `NaN` is false. -/
def jsGt (x y : JSNum) : Bool :=
  match x, y with
  | some a, some b => a > b
  | _, _ => false

/-- JavaScript `<=` on numbers: any comparison with `NaN` is false. -/
def jsLe (x y : JSNum) : Bool :=
  match x, y with
  | some a, some b => a ≤ b
  | _, _ => false

/-- JavaScript whitespace accepted (and skipped) by `parseInt`. -/
def isJsSpace (c : Char) : Bool :=
  c = ' ' ∨ c = '\t' ∨ c = '\n' ∨ c = '\r'

/-- Accumulate the longest leading run of decimal digits; `none` when the
run is empty (which makes `parseInt` return `NaN`). -/
def leadDigits (acc : Option Nat) : List Char → Option Nat
  | [] => acc
  | c :: cs =>
    if c.isDigit then
      leadDigits (some ((acc.getD 0) * 10 + (c.toNat - '0'.toNat))) cs
    else acc

/-- Model of JavaScript `parseInt(s, 10)`: skip leading whitespace, accept
an optional sign, then read the longest prefix of decimal digits, ignoring
any trailing garbage; `NaN` when no digits are found. -/
def jsParseInt (s : List Char) : JSNum :=
  match s.dropWhile isJsSpace with
  | '-' :: rest => (leadDigits none rest).map (fun n => -(n : Int))
  | '+' :: rest => (leadDigits none rest).map (fun n => (n : Int))
  | rest => (leadDigits none rest).map (fun n => (n : Int))

/-- JavaScript `s.split(sep)` for a single-character separator `sep`,
on character lists; `cur` is the (reversed) chunk being accumulated. -/
def splitChar (sep : Char) (cur : List Char) : List Char → List (List Char)
  | [] => [cur.reverse]
  | c :: cs =>
    if c = sep then cur.reverse :: splitChar sep [] cs
    else splitChar sep (c :: cur) cs

/-- JavaScript `s.split("-b")` on character lists (the beta delimiter used
by `parseVersion`); `cur` is the (reversed) chunk being accumulated. -/
def splitDashB (cur : List Char) : List Char → List (List Char)
  | '-' :: 'b' :: cs => cur.reverse :: splitDashB [] cs
  | c :: cs => splitDashB (c :: cur) cs
  | [] => [cur.reverse]

/-- `DecodedVersion` from `clarity-decode`: the four components of a parsed
version string. Components are JavaScript numbers, so a component can be
`NaN` (`none`) when `parseInt` fails on its part. -/
structure DecodedVersion where
  major : JSNum
  minor : JSNum
  patch : JSNum
  beta : JSNum
deriving DecidableEq, Repr

/-- The all-zero `DecodedVersion` that `parseVersion` starts from. -/
def zeroVersion : DecodedVersion :=
  { major := some 0, minor := some 0, patch := some 0, beta := some 0 }

/-- The dot-separated parts of a version string (`ver.split(".")`). -/
def versionParts (ver : String) : List (List Char) :=
  splitChar '.' [] ver.data

/-- `parseVersion` from `clarity.ts` lines 183–196: split on `"."`; only a
3-part split fills the output (otherwise the zero version is returned);
the third part is split on `"-b"` — a 2-piece result sets `patch` and
`beta`, otherwise the whole third part is `patch` and `beta` stays 0. -/
def parseVersion (ver : String) : DecodedVersion :=
  match versionParts ver with
  | [p0, p1, p2] =>
    match splitDashB [] p2 with
    | [x, y] =>
      { major := jsParseInt p0, minor := jsParseInt p1,
        patch := jsParseInt x, beta := jsParseInt y }
    | _ =>
      { major := jsParseInt p0, minor := jsParseInt p1,
        patch := jsParseInt p2, beta := some 0 }
  | _ => zeroVersion

/-- The version-gate condition of `decode` (`clarity.ts` lines 35–37),
written exactly as the source's `if` condition:
`jsonVersion.major !== codeVersion.major || jsonVersion.minor !==
codeVersion.minor || Math.abs(jsonVersion.patch - codeVersion.patch) > 1`. -/
def versionMismatch (jsonVersion codeVersion : DecodedVersion) : Bool :=
  jsStrictNe jsonVersion.major codeVersion.major ||
  jsStrictNe jsonVersion.minor codeVersion.minor ||
  jsGt (jsAbs (jsSub jsonVersion.patch codeVersion.patch)) (some 1)

/-- The compatibility check: `decode` proceeds exactly when
`versionMismatch` does not hold. -/
def isCompatible (incoming running : DecodedVersion) : Bool :=
  !(versionMismatch incoming running)

/-- Wire `Token` from `data.d.ts`: `string | number | number[] | string[]`.
One encoded event is a `List Token` whose element 0 is the timestamp and
element 1 the event-type code. -/
inductive Token where
  | num (n : JSNum)
  | str (s : String)
  | nums (l : List JSNum)
  | strs (l : List String)
deriving DecidableEq, Repr

/-- Read `entry[i]` as a JavaScript number: a non-number (or a missing
element, i.e. `undefined`) behaves as `NaN` for the numeric operations the
dispatcher performs on it. -/
def tokenNum (entry : List Token) (i : Nat) : JSNum :=
  match entry.get? i with
  | some (Token.num n) => n
  | _ => none

/-- Read `entry[i]` as a string (used only for the envelope's version
field, which the wire format carries as a string). -/
def tokenStr (entry : List Token) (i : Nat) : String :=
  match entry.get? i with
  | some (Token.str s) => s
  | _ => ""

/-- The event-type code of a token: `entry[1]`. The `switch` in `decode`
compares it with `===` against numeric enum constants, so a `NaN`,
missing, or non-numeric code matches no case. -/
def entryCode (entry : List Token) : JSNum :=
  tokenNum entry 1

def Event.Metric : Int := 0
def Event.Dimension : Int := 1
def Event.Upload : Int := 2
def Event.Upgrade : Int := 3
def Event.Discover : Int := 4
def Event.Mutation : Int := 5
def Event.Region : Int := 6
def Event.Document : Int := 7
def Event.Click : Int := 8
def Event.Scroll : Int := 9
def Event.Resize : Int := 10
def Event.MouseMove : Int := 11
def Event.MouseDown : Int := 12
def Event.MouseUp : Int := 13
def Event.MouseWheel : Int := 14
def Event.DoubleClick : Int := 15
def Event.TouchStart : Int := 16
def Event.TouchEnd : Int := 17
def Event.TouchMove : Int := 18
def Event.TouchCancel : Int := 19
def Event.Selection : Int := 20
def Event.Ping : Int := 23
def Event.Unload : Int := 24
def Event.Input : Int := 25
def Event.Visibility : Int := 26
def Event.Baseline : Int := 27
def Event.Navigation : Int := 28
def Event.Connection : Int := 29
def Event.ScriptError : Int := 30
def Event.ImageError : Int := 31
def Event.Log : Int := 32

/-- Modelled from the spec: the `Event` enum members `Limit`, `Summary`,
`Custom`, `Variable`, `Timeline` and `Box` are referenced by the dispatcher
but their declarations are not under `src/` (the bundled `data.d.ts` is an
older revision without them); they are modelled as six further distinct
numeric codes. -/
def Event.Limit : Int := 33

def Event.Summary : Int := 34
def Event.Custom : Int := 35
def Event.Variable : Int := 36
def Event.Timeline : Int := 37
def Event.Box : Int := 38

/-- `Metric.TotalBytes` from `data.d.ts` (`const enum Metric`): the fixed
key whose value the dispatcher overwrites on metric events. -/
def Metric.TotalBytes : Int := 2

/-- The output buckets of `DecodedPayload`, one per `payload.<field>`
pushed to by the dispatcher's `switch`. -/
inductive Bucket where
  | baseline | ping | limit | upgrade | metric | dimension | summary
  | custom | variable | upload | pointer | click | scroll | resize
  | selection | timeline | input | unload | visibility | box | region
  | dom | doc | script | image | log | connection | navigation
deriving DecidableEq, Repr

/-- The five category decoder modules imported by `clarity.ts`
(`data`, `interaction`, `layout`, `diagnostic`, `performance`). -/
inductive Category where
  | data | interaction | layout | diagnostic | performance
deriving DecidableEq, Repr

/-- Replace the value at key `k` (or append the pair), modelling
assignment `obj[k] = v` on a JavaScript object with numeric keys. -/
def setKey (k : Int) (v : JSNum) : List (Int × JSNum) → List (Int × JSNum)
  | [] => [(k, v)]
  | (k', v') :: rest =>
    if k' = k then (k, v) :: rest else (k', v') :: setKey k v rest

/-- Look up key `k`, modelling `obj[k]` on a JavaScript object with
numeric keys. -/
def getKey (k : Int) : List (Int × JSNum) → Option JSNum
  | [] => none
  | (k', v) :: rest => if k' = k then some v else getKey k rest

/-- Fold consecutive `key, value` token pairs into a numeric map (the
shape used by metric/dimension style event data on the wire). -/
def pairsOf (acc : List (Int × JSNum)) : List Token → List (Int × JSNum)
  | k :: v :: rest =>
    pairsOf (setKey ((tokenNum [k] 0).getD 0) (tokenNum [v] 0) acc) rest
  | _ => acc

/-- Modelled from the spec: the category decoders (`data.decode`,
`interaction.decode`, `layout.decode`, `diagnostic.decode`,
`performance.decode`) are external collaborators whose sources are not
under `src/`; per the spec each is a pure total function from a token to a
typed event for its category. The model keeps the token's timestamp, the
producing category, the raw payload tail, and a numeric key/value map
(the only piece of decoder output the dispatcher itself manipulates, via
`metric.data[Metric.TotalBytes]`). -/
structure DecodedEvent where
  time : JSNum
  source : Category
  fields : List Token
  data : List (Int × JSNum)
deriving DecidableEq, Repr

/-- Modelled from the spec: shared shape of all five category decoders. -/
def categoryDecode (cat : Category) (entry : List Token) : DecodedEvent :=
  { time := tokenNum entry 0, source := cat, fields := entry.drop 2,
    data := pairsOf [] (entry.drop 2) }

/-- Modelled from the spec: `data.decode` (generic data events). -/
def dataDecode (entry : List Token) : DecodedEvent :=
  categoryDecode Category.data entry

/-- Modelled from the spec: `interaction.decode` (behavioral events). -/
def interactionDecode (entry : List Token) : DecodedEvent :=
  categoryDecode Category.interaction entry

/-- Modelled from the spec: `layout.decode` (DOM/layout events). -/
def layoutDecode (entry : List Token) : DecodedEvent :=
  categoryDecode Category.layout entry

/-- Modelled from the spec: `diagnostic.decode`. -/
def diagnosticDecode (entry : List Token) : DecodedEvent :=
  categoryDecode Category.diagnostic entry

/-- Modelled from the spec: `performance.decode`. -/
def performanceDecode (entry : List Token) : DecodedEvent :=
  categoryDecode Category.performance entry

/-- `Envelope` from `data.d.ts`: session/page identity and framing
metadata; `version` is the payload's declared protocol version string. -/
structure Envelope where
  version : String
  sequence : JSNum
  start : JSNum
  duration : JSNum
  projectId : JSNum
  userId : JSNum
  sessionId : JSNum
  pageId : JSNum
  upload : JSNum
  endFlag : JSNum
deriving DecidableEq, Repr

/-- Modelled from the spec: `data.envelope` (the envelope decoder) is a
collaborator whose source is not under `src/`; it turns the envelope token
into the `Envelope` record, version string first. -/
def envelopeDecode (e : List Token) : Envelope :=
  { version := tokenStr e 0, sequence := tokenNum e 1, start := tokenNum e 2,
    duration := tokenNum e 3, projectId := tokenNum e 4, userId := tokenNum e 5,
    sessionId := tokenNum e 6, pageId := tokenNum e 7, upload := tokenNum e 8,
    endFlag := tokenNum e 9 }

/-- Modelled from the spec: `version`, the decoder's built-in running
version imported from `clarity-js` (not under `src/`); the spec's examples
run at `1.2.0`. -/
def version : String := "1.2.0"

/-- The comparator passed to `encoded.sort` in `clarity.ts` line 27:
`(a, b) => (a[0] as number) - (b[0] as number)`. -/
def sortCompare (x y : List Token) : JSNum :=
  jsSub (tokenNum x 0) (tokenNum y 0)

/-- "`x` need not come after `y`" for the source's comparator: the sort
places `x` before `y` unless the comparator is positive. On numeric
timestamps this is exactly `x[0] ≤ y[0]`. -/
def sortLe (x y : List Token) : Bool :=
  !(jsGt (sortCompare x y) (some 0))

/-- Insert `x` into `l` in front of the first element that `x` may
precede; keeps equal-key elements in their existing order, with `x` (the
earlier-arriving element) in front of its ties. -/
def sortInsert (le : α → α → Bool) (x : α) : List α → List α
  | [] => [x]
  | y :: ys => if le x y then x :: y :: ys else y :: sortInsert le x ys

/-- Stable sort (insertion sort), modelling ECMAScript
`Array.prototype.sort`, which is required to be stable. -/
def stableSort (le : α → α → Bool) : List α → List α
  | [] => []
  | x :: xs => sortInsert le x (stableSort le xs)

/-- Wire `Payload` shape consumed by `decode`: envelope token `e`, primary
event channel `a`, optional secondary channel `p`. (`JSON.parse` itself is
outside the model: `decode` receives the parsed shape together with the
raw input string it was parsed from.) -/
structure Payload where
  e : List Token
  a : List (List Token)
  p : Option (List (List Token))
deriving DecidableEq, Repr

/-- `json.p ? json.a.concat(json.p) : json.a` (`clarity.ts` line 26): a
present `p` array — even an empty one, since an array is truthy — is
concatenated after `a`. -/
def encodedOf (json : Payload) : List (List Token) :=
  match json.p with
  | some p => json.a ++ p
  | none => json.a

/-- The merged, time-sorted token sequence the dispatcher iterates
(`clarity.ts` lines 26–27). -/
def mergedOf (json : Payload) : List (List Token) :=
  stableSort sortLe (encodedOf json)

/-- The decoder's output: decode-time timestamp, the envelope, and one
lazily-created bucket per category (`undefined`, i.e. `none`, until first
write). -/
@[ext]
structure DecodedPayload where
  timestamp : Int
  envelope : Envelope
  buckets : Bucket → Option (List DecodedEvent)

/-- The error thrown on version mismatch (`clarity.ts` line 38); its
message interpolates the incoming version string, the running version
string, and `input.substr(0, 250)`. -/
structure DecodeError where
  actual : String
  expected : String
  raw : String
deriving DecidableEq, Repr

/-- JavaScript `input.substr(0, n)`: the first `n` characters. -/
def jsSubstr (s : String) (n : Nat) : String :=
  String.mk (s.data.take n)

/-- The dispatcher's `switch` (`clarity.ts` lines 44–176) as an explicit
finite mapping: one row per `case` label, in source order, pairing an
event-type code with the category decoder that handles it and the bucket
it populates. Grouped `case` labels (the nine pointer/touch codes sharing
the `pointer` case, and discover/mutation sharing the `dom` case) become
one row each. -/
def eventRouteTable : List (Int × Category × Bucket) :=
  [(Event.Baseline, Category.data, Bucket.baseline),
   (Event.Ping, Category.data, Bucket.ping),
   (Event.Limit, Category.data, Bucket.limit),
   (Event.Upgrade, Category.data, Bucket.upgrade),
   (Event.Metric, Category.data, Bucket.metric),
   (Event.Dimension, Category.data, Bucket.dimension),
   (Event.Summary, Category.data, Bucket.summary),
   (Event.Custom, Category.data, Bucket.custom),
   (Event.Variable, Category.data, Bucket.variable),
   (Event.Upload, Category.data, Bucket.upload),
   (Event.MouseDown, Category.interaction, Bucket.pointer),
   (Event.MouseUp, Category.interaction, Bucket.pointer),
   (Event.MouseMove, Category.interaction, Bucket.pointer),
   (Event.MouseWheel, Category.interaction, Bucket.pointer),
   (Event.DoubleClick, Category.interaction, Bucket.pointer),
   (Event.TouchStart, Category.interaction, Bucket.pointer),
   (Event.TouchCancel, Category.interaction, Bucket.pointer),
   (Event.TouchEnd, Category.interaction, Bucket.pointer),
   (Event.TouchMove, Category.interaction, Bucket.pointer),
   (Event.Click, Category.interaction, Bucket.click),
   (Event.Scroll, Category.interaction, Bucket.scroll),
   (Event.Resize, Category.interaction, Bucket.resize),
   (Event.Selection, Category.interaction, Bucket.selection),
   (Event.Timeline, Category.interaction, Bucket.timeline),
   (Event.Input, Category.interaction, Bucket.input),
   (Event.Unload, Category.interaction, Bucket.unload),
   (Event.Visibility, Category.interaction, Bucket.visibility),
   (Event.Box, Category.layout, Bucket.box),
   (Event.Region, Category.layout, Bucket.region),
   (Event.Discover, Category.layout, Bucket.dom),
   (Event.Mutation, Category.layout, Bucket.dom),
   (Event.Document, Category.layout, Bucket.doc),
   (Event.ScriptError, Category.diagnostic, Bucket.script),
   (Event.ImageError, Category.diagnostic, Bucket.image),
   (Event.Log, Category.diagnostic, Bucket.log),
   (Event.Connection, Category.performance, Bucket.connection),
   (Event.Navigation, Category.performance, Bucket.navigation)]

/-- Route an event-type code through the `switch`: the first (and, since
codes are distinct, only) matching row; `none` is the `default` branch. -/
def eventRoute (c : Int) : Option (Category × Bucket) :=
  (eventRouteTable.find? (fun e => e.1 == c)).map (fun e => e.2)

/-- Decode one token per its `switch` case: route the code at `entry[1]`,
run the category decoder, and — for the metric case only — overwrite
`metric.data[Metric.TotalBytes]` with the raw input length (`clarity.ts`
line 68). `none` for the `default` branch (no registered handler). -/
def decodeEntry (rawLen : Nat) (entry : List Token) : Option (Bucket × DecodedEvent) :=
  match entryCode entry with
  | none => none
  | some c =>
    match eventRoute c with
    | none => none
    | some (cat, b) =>
      let ev := categoryDecode cat entry
      let ev := if b = Bucket.metric then
          { ev with data := setKey Metric.TotalBytes (some (rawLen : Int)) ev.data }
        else ev
      some (b, ev)

/-- `if (payload.<b> === undefined) { payload.<b> = []; } payload.<b>.push(ev)`:
lazily create the bucket on first write, then append. -/
def pushBucket (P : DecodedPayload) (b : Bucket) (ev : DecodedEvent) : DecodedPayload :=
  { P with buckets := fun b' =>
      if b' = b then some ((P.buckets b).getD [] ++ [ev]) else P.buckets b' }

/-- One iteration of the dispatcher's `for` loop: decode the token and
push it to its bucket; an unroutable token leaves the payload unchanged
(the `default` branch only logs). -/
def dispatchStep (rawLen : Nat) (P : DecodedPayload) (entry : List Token) : DecodedPayload :=
  match decodeEntry rawLen entry with
  | none => P
  | some (b, ev) => pushBucket P b ev

/-- `decode` from `clarity.ts` lines 16–180. `input` is the raw payload
string, `json` its parsed form, `now` the `Date.now()` reading; a version
mismatch throws (returns `.error`) before any token is dispatched. -/
def decode (input : String) (json : Payload) (now : Int) : Except DecodeError DecodedPayload :=
  let envelope := envelopeDecode json.e
  let payload : DecodedPayload := { timestamp := now, envelope := envelope, buckets := fun _ => none }
  let encoded := mergedOf json
  let jsonVersion := parseVersion envelope.version
  let codeVersion := parseVersion version
  if versionMismatch jsonVersion codeVersion then
    Except.error { actual := envelope.version, expected := version, raw := jsSubstr input 250 }
  else
    Except.ok (encoded.foldl (dispatchStep input.length) payload)

/-- The subsequence of decoded events that the dispatcher appends to
bucket `b` while traversing `tokens` in order. -/
def bucketTrace (rawLen : Nat) (tokens : List (List Token)) (b : Bucket) : List DecodedEvent :=
  tokens.filterMap (fun entry =>
    (decodeEntry rawLen entry).bind (fun r => if r.1 = b then some r.2 else none))

/-- Extending a bucket's current contents by a run of appends: still
absent when nothing was ever written. -/
def extendBucket (o : Option (List DecodedEvent)) (tr : List DecodedEvent) :
    Option (List DecodedEvent) :=
  match o, tr with
  | none, [] => none
  | o, tr => some (o.getD [] ++ tr)

/-- Ascending-by-timestamp order as a relation between tokens. -/
def tsLe (x y : List Token) : Prop :=
  jsLe (tokenNum x 0) (tokenNum y 0) = true

/-- Concrete one-scroll-token payload used by the C8 witness. -/
def json8 : Payload :=
  { e := [Token.str "1.2.0"], a := [[Token.num (some 4), Token.num (some 9)]], p := none }

/-- What `decode "x" json8 0` computes to (the fold of the dispatcher over
the merged tokens). -/
def payload8 : DecodedPayload :=
  (mergedOf json8).foldl (dispatchStep 1)
    { timestamp := 0, envelope := envelopeDecode json8.e, buckets := fun _ => none }

/-- Concrete two-metric-token payload used by the C6 witness; the first
metric token even transmits its own (wrong) `TotalBytes` value 999. -/
def json6 : Payload :=
  { e := [Token.str "1.2.0"],
    a := [[Token.num (some 3), Token.num (some 0), Token.num (some 2), Token.num (some 999)],
          [Token.num (some 7), Token.num (some 0)]],
    p := none }

/-- What `decode "hello" json6 0` computes to. -/
def payload6 : DecodedPayload :=
  (mergedOf json6).foldl (dispatchStep 5)
    { timestamp := 0, envelope := envelopeDecode json6.e, buckets := fun _ => none }

/-- The pointer/touch event-type codes grouped into the `pointer` case of
the dispatcher's `switch` (`clarity.ts` lines 91–99), in source order. -/
def pointerCodes : List Int :=
  [Event.MouseDown, Event.MouseUp, Event.MouseMove, Event.MouseWheel,
   Event.DoubleClick, Event.TouchStart, Event.TouchCancel, Event.TouchEnd,
   Event.TouchMove]

/-- Concrete payload with a timestamp tie across channels, used by the C3
witness: primary `a` has events at times 5 and 3, secondary `p` has one
at time 3. -/
def json3 : Payload :=
  { e := [Token.str "1.2.0"],
    a := [[Token.num (some 5), Token.num (some 8)],
          [Token.num (some 3), Token.num (some 9)]],
    p := some [[Token.num (some 3), Token.num (some 10)]] }

/-- Strip the decode-time clock reading from a decode result, for stating
what is and is not determined by the input. -/
def stripTime : Except DecodeError DecodedPayload → Except DecodeError DecodedPayload
  | Except.ok P => Except.ok { P with timestamp := 0 }
  | Except.error e => Except.error e

/-- Payload with no event tokens used by the C9 theorems. -/
def json9 : Payload := { e := [Token.str "1.2.0"], a := [], p := none }

/-! ## Lemmas and claim theorems -/

theorem sortInsert_perm (le : α → α → Bool) (x : α) (l : List α) :
    (sortInsert le x l).Perm (x :: l) := by
  induction l with
  | nil => simp [sortInsert]
  | cons y ys ih =>
    by_cases h : le x y = true
    · simp [sortInsert, h]
    · simp only [sortInsert, h]
      simp only [Bool.false_eq_true, if_false]
      exact (ih.cons y).trans (List.Perm.swap x y ys)

theorem stableSort_perm (le : α → α → Bool) (l : List α) :
    (stableSort le l).Perm l := by
  induction l with
  | nil => simp [stableSort]
  | cons x xs ih =>
    exact (sortInsert_perm le x (stableSort le xs)).trans (ih.cons x)

theorem mem_stableSort (le : α → α → Bool) (l : List α) (a : α) :
    a ∈ stableSort le l ↔ a ∈ l :=
  (stableSort_perm le l).mem_iff

theorem sortLe_eq_true_iff {x y : List Token} {a b : Int}
    (hx : tokenNum x 0 = some a) (hy : tokenNum y 0 = some b) :
    sortLe x y = true ↔ a ≤ b := by
  simp only [sortLe, sortCompare, hx, hy, jsSub, jsGt]
  constructor
  · intro h
    simp only [Bool.not_eq_true', decide_eq_false_iff_not, not_lt] at h
    omega
  · intro h
    simp only [Bool.not_eq_true', decide_eq_false_iff_not, not_lt]
    omega

theorem jsLe_some_iff {a b : Int} : jsLe (some a) (some b) = true ↔ a ≤ b := by
  simp [jsLe]

theorem pairwise_sortInsert {x : List Token} {l : List (List Token)}
    (hx : (tokenNum x 0).isSome = true)
    (hl : ∀ e ∈ l, (tokenNum e 0).isSome = true)
    (h : l.Pairwise tsLe) : (sortInsert sortLe x l).Pairwise tsLe := by
  obtain ⟨a, ha⟩ := Option.isSome_iff_exists.mp hx
  induction l with
  | nil => simp [sortInsert]
  | cons y ys ih =>
    obtain ⟨hy, hys⟩ := List.forall_mem_cons.mp hl
    obtain ⟨b, hb⟩ := Option.isSome_iff_exists.mp hy
    rw [List.pairwise_cons] at h
    obtain ⟨hyys, hpys⟩ := h
    by_cases hle : sortLe x y = true
    · simp only [sortInsert, hle, if_true]
      have hab : a ≤ b := (sortLe_eq_true_iff ha hb).mp hle
      rw [List.pairwise_cons]
      refine ⟨?_, List.pairwise_cons.mpr ⟨hyys, hpys⟩⟩
      intro z hz
      rw [List.mem_cons] at hz
      rcases hz with rfl | hz
      · unfold tsLe
        rw [ha, hb, jsLe_some_iff]
        exact hab
      · have hbz := hyys z hz
        obtain ⟨c, hc⟩ := Option.isSome_iff_exists.mp (hys z hz)
        unfold tsLe at hbz ⊢
        rw [ha, hc, jsLe_some_iff]
        rw [hb, hc, jsLe_some_iff] at hbz
        omega
    · simp only [sortInsert, hle]
      simp only [Bool.false_eq_true, if_false]
      rw [List.pairwise_cons]
      constructor
      · intro z hz
        rw [(sortInsert_perm sortLe x ys).mem_iff, List.mem_cons] at hz
        rcases hz with hz | hz
        · subst hz
          have : ¬ a ≤ b := fun hab => hle ((sortLe_eq_true_iff ha hb).mpr hab)
          unfold tsLe
          rw [hb, ha, jsLe_some_iff]
          omega
        · exact hyys z hz
      · exact ih hys hpys

theorem pairwise_stableSort {l : List (List Token)}
    (hl : ∀ e ∈ l, (tokenNum e 0).isSome = true) :
    (stableSort sortLe l).Pairwise tsLe := by
  induction l with
  | nil => simp [stableSort]
  | cons x xs ih =>
    obtain ⟨hx, hxs⟩ := List.forall_mem_cons.mp hl
    refine pairwise_sortInsert hx ?_ (ih hxs)
    intro e he
    exact hxs e ((mem_stableSort sortLe xs e).mp he)

theorem filter_sortInsert (t : Int) {x : List Token} {l : List (List Token)}
    (hx : (tokenNum x 0).isSome = true)
    (hl : ∀ e ∈ l, (tokenNum e 0).isSome = true) :
    (sortInsert sortLe x l).filter (fun e => decide (tokenNum e 0 = some t)) =
      if tokenNum x 0 = some t then
        x :: l.filter (fun e => decide (tokenNum e 0 = some t))
      else l.filter (fun e => decide (tokenNum e 0 = some t)) := by
  obtain ⟨a, ha⟩ := Option.isSome_iff_exists.mp hx
  induction l with
  | nil =>
    by_cases hpx : tokenNum x 0 = some t <;> simp [sortInsert, hpx]
  | cons y ys ih =>
    obtain ⟨hy, hys⟩ := List.forall_mem_cons.mp hl
    obtain ⟨b, hb⟩ := Option.isSome_iff_exists.mp hy
    by_cases hle : sortLe x y = true
    · simp only [sortInsert, hle, if_true]
      by_cases hpx : tokenNum x 0 = some t <;> simp [List.filter_cons, hpx]
    · simp only [sortInsert, hle]
      simp only [Bool.false_eq_true, if_false]
      have hba : b < a := by
        have : ¬ a ≤ b := fun hab => hle ((sortLe_eq_true_iff ha hb).mpr hab)
        omega
      by_cases hpx : tokenNum x 0 = some t
      · have hpy : ¬ tokenNum y 0 = some t := by
          rw [hb]
          rw [ha] at hpx
          intro hc
          have : a = t := by injection hpx
          have : b = t := by injection hc
          omega
        simp only [List.filter_cons, hpx, if_pos, decide_eq_true_eq]
        rw [if_neg hpy, if_pos hpx] at *
        simp only [hpy, decide_eq_false_iff_not, not_false_eq_true, decide_eq_true_eq]
        simp only [ih hys, if_pos hpx]
        simp [hpy]
      · simp only [List.filter_cons]
        rw [ih hys]
        simp [hpx]

theorem filter_stableSort (t : Int) {l : List (List Token)}
    (hl : ∀ e ∈ l, (tokenNum e 0).isSome = true) :
    (stableSort sortLe l).filter (fun e => decide (tokenNum e 0 = some t)) =
      l.filter (fun e => decide (tokenNum e 0 = some t)) := by
  induction l with
  | nil => simp [stableSort]
  | cons x xs ih =>
    obtain ⟨hx, hxs⟩ := List.forall_mem_cons.mp hl
    have hsorted : ∀ e ∈ stableSort sortLe xs, (tokenNum e 0).isSome = true := by
      intro e he
      exact hxs e ((mem_stableSort sortLe xs e).mp he)
    rw [stableSort, filter_sortInsert t hx hsorted, ih hxs, List.filter_cons]
    by_cases hpx : tokenNum x 0 = some t <;> simp [hpx]

theorem extendBucket_none_nil : extendBucket none [] = none := rfl

theorem extendBucket_some (l : List DecodedEvent) (tr : List DecodedEvent) :
    extendBucket (some l) tr = some (l ++ tr) := by
  cases tr <;> simp [extendBucket]

theorem extendBucket_none_cons (e : DecodedEvent) (tr : List DecodedEvent) :
    extendBucket none (e :: tr) = some (e :: tr) := by
  simp [extendBucket]

theorem extendBucket_nil (o : Option (List DecodedEvent)) :
    extendBucket o [] = o := by
  cases o with
  | none => rfl
  | some l => simp [extendBucket]

theorem bucketTrace_nil (rawLen : Nat) (b : Bucket) :
    bucketTrace rawLen [] b = [] := rfl

theorem bucketTrace_cons (rawLen : Nat) (e : List Token)
    (ts : List (List Token)) (b : Bucket) :
    bucketTrace rawLen (e :: ts) b =
      (match decodeEntry rawLen e with
       | some (b', ev) => if b' = b then ev :: bucketTrace rawLen ts b
                          else bucketTrace rawLen ts b
       | none => bucketTrace rawLen ts b) := by
  simp only [bucketTrace, List.filterMap_cons]
  match h : decodeEntry rawLen e with
  | none => simp [h]
  | some (b', ev) =>
    by_cases hb : b' = b
    · simp [h, hb]
    · simp [h, hb]

/-- Master accumulator lemma: folding the dispatcher over a token list
extends every bucket by exactly the trace of events routed to it, and
touches neither the timestamp nor the envelope. -/
theorem foldl_dispatchStep (rawLen : Nat) (ts : List (List Token)) (P : DecodedPayload) :
    List.foldl (dispatchStep rawLen) P ts =
      { P with buckets := fun b => extendBucket (P.buckets b) (bucketTrace rawLen ts b) } := by
  induction ts generalizing P with
  | nil =>
    simp only [List.foldl_nil, bucketTrace_nil, extendBucket_nil]
  | cons e ts ih =>
    simp only [List.foldl_cons]
    rw [ih]
    match h : decodeEntry rawLen e with
    | none =>
      have hstep : dispatchStep rawLen P e = P := by
        simp [dispatchStep, h]
      rw [hstep]
      congr 1
      funext b
      rw [bucketTrace_cons]
      simp [h]
    | some (b', ev) =>
      have hstep : dispatchStep rawLen P e = pushBucket P b' ev := by
        simp [dispatchStep, h]
      rw [hstep]
      simp only [pushBucket]
      congr 1
      funext b
      rw [bucketTrace_cons]
      simp only [h]
      by_cases hb : b = b'
      · subst hb
        rw [if_pos rfl, if_pos rfl, extendBucket_some]
        cases ho : P.buckets b with
        | none =>
          simp only [Option.getD_none, List.nil_append]
          rw [extendBucket_none_cons]
          simp
        | some l =>
          simp only [Option.getD_some]
          rw [extendBucket_some]
          simp
      · rw [if_neg hb, if_neg (fun hc => hb hc.symm)]

theorem getKey_setKey (k : Int) (v : JSNum) (l : List (Int × JSNum)) :
    getKey k (setKey k v l) = some v := by
  induction l with
  | nil => simp [setKey, getKey]
  | cons p rest ih =>
    obtain ⟨k', v'⟩ := p
    by_cases h : k' = k
    · simp [setKey, getKey, h]
    · simp [setKey, getKey, h, ih]

/-- Characterization of `decode`: fail fast with the version-mismatch
error, or return the payload whose buckets are exactly the dispatch traces
over the merged token sequence. -/
theorem decode_spec (input : String) (json : Payload) (now : Int) :
    decode input json now =
      if versionMismatch (parseVersion (envelopeDecode json.e).version) (parseVersion version) then
        Except.error { actual := (envelopeDecode json.e).version,
                       expected := version, raw := jsSubstr input 250 }
      else
        Except.ok { timestamp := now, envelope := envelopeDecode json.e,
                    buckets := fun b =>
                      extendBucket none (bucketTrace input.length (mergedOf json) b) } := by
  unfold decode
  by_cases h : versionMismatch (parseVersion (envelopeDecode json.e).version)
      (parseVersion version) = true
  · simp only [h, if_true]
  · simp only [Bool.not_eq_true] at h
    simp only [h, Bool.false_eq_true, if_false, foldl_dispatchStep]

/-- C1 (counterexample): the claimed "if and only if" fails on a pair of
parsed versions with a `NaN` patch component: for incoming
`parseVersion "1.2.x"` against running `parseVersion "1.2.0"` the
compatibility check passes although the absolute difference between the
patch components is not at most 1 (it is `NaN`, and every comparison with
`NaN` is false). -/
theorem c1_counterexample :
    isCompatible (parseVersion "1.2.x") (parseVersion "1.2.0") = true ∧
    (parseVersion "1.2.x").major = (parseVersion "1.2.0").major ∧
    (parseVersion "1.2.x").minor = (parseVersion "1.2.0").minor ∧
    (parseVersion "1.2.x").patch = none ∧
    jsLe (jsAbs (jsSub (parseVersion "1.2.x").patch (parseVersion "1.2.0").patch))
      (some 1) = false := by
  decide

/-- C1 (amended): for parsed versions whose major, minor and patch
components are actual numbers (not `NaN`), the compatibility check passes
iff the majors are equal, the minors are equal, and the patch components
differ by at most 1; the beta component never affects the outcome; and
the claimed truth table holds: `(1,2,3)` vs `(1,2,4)` passes, `(1,2,3)`
vs `(1,2,5)` fails, `(1,3,0)` vs `(1,2,0)` fails, `(2,2,0)` vs `(1,2,0)`
fails. -/
theorem c1_compat_characterization :
    (∀ (i r : DecodedVersion) (mi ni pi mr nr pr : Int),
      i.major = some mi → i.minor = some ni → i.patch = some pi →
      r.major = some mr → r.minor = some nr → r.patch = some pr →
      (isCompatible i r = true ↔ (mi = mr ∧ ni = nr ∧ |pi - pr| ≤ 1)))
    ∧ (∀ (i r : DecodedVersion) (b b' : JSNum),
        isCompatible { i with beta := b } { r with beta := b' } = isCompatible i r)
    ∧ isCompatible (parseVersion "1.2.3") (parseVersion "1.2.4") = true
    ∧ isCompatible (parseVersion "1.2.3") (parseVersion "1.2.5") = false
    ∧ isCompatible (parseVersion "1.3.0") (parseVersion "1.2.0") = false
    ∧ isCompatible (parseVersion "2.2.0") (parseVersion "1.2.0") = false := by
  refine ⟨?_, ?_, by decide, by decide, by decide, by decide⟩
  · intro i r mi ni pi mr nr pr him hin hip hrm hrn hrp
    simp only [isCompatible, versionMismatch, him, hin, hip, hrm, hrn, hrp,
      jsStrictNe, jsSub, jsAbs, jsGt, Option.map_some']
    simp only [Bool.not_eq_true', Bool.or_eq_false_iff, decide_eq_false_iff_not,
      Decidable.not_not, not_lt]
    tauto
  · intro i r b b'
    rfl

/-- C1 (witness): the characterization applied to the concrete parsed pair
`(1,2,3)` vs `(1,2,4)`. -/
theorem c1_compat_characterization_witness :
    (parseVersion "1.2.3").major = some 1 ∧ (parseVersion "1.2.3").minor = some 2 ∧
    (parseVersion "1.2.3").patch = some 3 ∧ (parseVersion "1.2.4").major = some 1 ∧
    (parseVersion "1.2.4").minor = some 2 ∧ (parseVersion "1.2.4").patch = some 4 ∧
    (isCompatible (parseVersion "1.2.3") (parseVersion "1.2.4") = true ↔
      ((1 : Int) = 1 ∧ (2 : Int) = 2 ∧ |(3 : Int) - 4| ≤ 1)) :=
  ⟨by decide, by decide, by decide, by decide, by decide, by decide,
    c1_compat_characterization.1 (parseVersion "1.2.3") (parseVersion "1.2.4")
      1 2 3 1 2 4 (by decide) (by decide) (by decide) (by decide) (by decide) (by decide)⟩

/-- C2: `parseVersion` splits on `"."`; a split that is not exactly 3
parts returns the zero version; otherwise the third part is split on the
beta delimiter `"-b"` — two pieces set `patch` and `beta` (via
`parseInt`), any other shape makes the whole third part `patch` with
`beta` 0; and the three concrete examples from the spec hold. -/
theorem c2_parseVersion_characterization :
    (∀ s : String, (versionParts s).length ≠ 3 → parseVersion s = zeroVersion)
    ∧ (∀ (s : String) (p0 p1 p2 : List Char), versionParts s = [p0, p1, p2] →
        (∀ x y : List Char, splitDashB [] p2 = [x, y] →
          parseVersion s = { major := jsParseInt p0, minor := jsParseInt p1,
                             patch := jsParseInt x, beta := jsParseInt y })
        ∧ ((splitDashB [] p2).length ≠ 2 →
          parseVersion s = { major := jsParseInt p0, minor := jsParseInt p1,
                             patch := jsParseInt p2, beta := some 0 }))
    ∧ parseVersion "1.2.3-b7" =
        { major := some 1, minor := some 2, patch := some 3, beta := some 7 }
    ∧ parseVersion "1.2.3" =
        { major := some 1, minor := some 2, patch := some 3, beta := some 0 }
    ∧ parseVersion "bad" = zeroVersion := by
  refine ⟨?_, ?_, by decide, by decide, by decide⟩
  · intro s h
    unfold parseVersion
    split
    · rename_i p0 p1 p2 heq
      exact absurd (by rw [heq]; rfl) h
    · rfl
  · intro s p0 p1 p2 hparts
    constructor
    · intro x y hsub
      simp only [parseVersion, hparts, hsub]
    · intro hlen
      simp only [parseVersion, hparts]
      split
      · rename_i x y heq
        exact absurd (by rw [heq]; rfl) hlen
      · rfl

/-- C2 (witness): the characterization applied to `"1.2.3-b7"` (3 parts,
beta split into two pieces) and to a malformed string. -/
theorem c2_parseVersion_characterization_witness :
    (versionParts "bad").length ≠ 3 ∧ parseVersion "bad" = zeroVersion ∧
    versionParts "1.2.3-b7" = [['1'], ['2'], ['3', '-', 'b', '7']] ∧
    splitDashB [] ['3', '-', 'b', '7'] = [['3'], ['7']] ∧
    parseVersion "1.2.3-b7" =
      { major := jsParseInt ['1'], minor := jsParseInt ['2'],
        patch := jsParseInt ['3'], beta := jsParseInt ['7'] } :=
  ⟨by decide, c2_parseVersion_characterization.1 "bad" (by decide),
   by decide, by decide,
   (c2_parseVersion_characterization.2.1 "1.2.3-b7" ['1'] ['2'] ['3', '-', 'b', '7']
      (by decide)).1 ['3'] ['7'] (by decide)⟩

/-- C10 (counterexample): `"1.2.x"` splits into exactly 3 dot-parts and its
patch part `"x"` is not a parseable integer, yet — contrary to the claim —
the parsed version does not always fail the compatibility check:
against running version `1.2.0` the check passes (the patch component is
`NaN` and `Math.abs(NaN - 0) > 1` is false), and `decode` succeeds. -/
theorem c10_counterexample :
    versionParts "1.2.x" = [['1'], ['2'], ['x']] ∧
    jsParseInt ['x'] = none ∧
    (parseVersion "1.2.x").patch = none ∧
    versionMismatch (parseVersion "1.2.x") (parseVersion "1.2.0") = false ∧
    decode "x" { e := [Token.str "1.2.x"], a := [], p := none } 0 =
      Except.ok { timestamp := 0, envelope := envelopeDecode [Token.str "1.2.x"],
                  buckets := fun _ => none } :=
  ⟨by decide, by decide, by decide, by decide, rfl⟩

/-- C10 (amended): a 3-part version string with a non-parseable component
gets `NaN` (`none`) in that component; a `NaN` major or minor makes the
compatibility check fail against every running version (so `decode`
raises), but a `NaN` patch never fails the patch condition — the check
then reduces to the major/minor comparisons, so such a payload can pass. -/
theorem c10_nan_components :
    (∀ (j c : DecodedVersion), (j.major = none ∨ j.minor = none) →
      versionMismatch j c = true)
    ∧ (∀ (j c : DecodedVersion), j.patch = none →
      versionMismatch j c =
        (jsStrictNe j.major c.major || jsStrictNe j.minor c.minor))
    ∧ (∀ (s : String) (p0 p1 p2 : List Char), versionParts s = [p0, p1, p2] →
      jsParseInt p0 = none → (parseVersion s).major = none)
    ∧ (∀ (input : String) (json : Payload) (now : Int),
      (parseVersion (envelopeDecode json.e).version).major = none →
      decode input json now =
        Except.error { actual := (envelopeDecode json.e).version,
                       expected := version, raw := jsSubstr input 250 }) := by
  refine ⟨?_, ?_, ?_, ?_⟩
  · intro j c h
    rcases h with h | h <;>
      simp [versionMismatch, h, jsStrictNe]
  · intro j c h
    simp [versionMismatch, h, jsSub, jsAbs, jsGt]
  · intro s p0 p1 p2 hparts hp0
    simp only [parseVersion, hparts]
    split <;> simp [hp0]
  · intro input json now h
    have hne : jsStrictNe (parseVersion (envelopeDecode json.e).version).major
        (parseVersion version).major = true := by
      rw [h]
      rfl
    have hm : versionMismatch (parseVersion (envelopeDecode json.e).version)
        (parseVersion version) = true := by
      simp [versionMismatch, hne]
    rw [decode_spec, if_pos hm]

/-- C10 (witness): the amended statement applied at concrete inputs: a
`NaN` major always mismatches, and a `NaN`-major payload version makes
`decode` raise. -/
theorem c10_nan_components_witness :
    ((parseVersion "x.2.0").major = none ∨ (parseVersion "x.2.0").minor = none) ∧
    versionMismatch (parseVersion "x.2.0") zeroVersion = true ∧
    (parseVersion (envelopeDecode [Token.str "x.2.0"]).version).major = none ∧
    decode "ab" { e := [Token.str "x.2.0"], a := [], p := none } 5 =
      Except.error { actual := "x.2.0", expected := version, raw := "ab" } :=
  ⟨by decide, c10_nan_components.1 (parseVersion "x.2.0") zeroVersion (by decide),
   by decide,
   by
    have h := c10_nan_components.2.2.2 "ab"
      { e := [Token.str "x.2.0"], a := [], p := none } 5 (by decide)
    simpa using h⟩

/-- C4: when the declared protocol version is incompatible with the
running version, `decode` raises the version-mismatch error carrying the
incoming version string, the running version string, and the first 250
characters of the raw input, returning no payload; the error is raised
before any bucket work — it does not depend on the event channels `a` and
`p` at all — and an incompatibility is never silently downgraded. -/
theorem c4_version_mismatch_fatal :
    ∀ (input : String) (json : Payload) (now : Int),
      versionMismatch (parseVersion (envelopeDecode json.e).version)
        (parseVersion version) = true →
      decode input json now =
        Except.error { actual := (envelopeDecode json.e).version,
                       expected := version, raw := jsSubstr input 250 }
      ∧ (∀ (a' : List (List Token)) (p' : Option (List (List Token))),
          decode input { json with a := a', p := p' } now = decode input json now)
      ∧ (∀ P, decode input json now ≠ Except.ok P) := by
  intro input json now h
  have hself : decode input json now =
      Except.error { actual := (envelopeDecode json.e).version,
                     expected := version, raw := jsSubstr input 250 } := by
    rw [decode_spec, if_pos h]
  refine ⟨hself, ?_, ?_⟩
  · intro a' p'
    rw [hself, decode_spec, if_pos h]
  · intro P hP
    rw [hself] at hP
    exact Except.noConfusion hP

/-- C4 (witness): applied to a payload declaring `1.3.0` against the
running `1.2.0`: the minor versions differ, and decode raises with both
version strings and the (short) raw input. -/
theorem c4_version_mismatch_fatal_witness :
    versionMismatch (parseVersion (envelopeDecode [Token.str "1.3.0"]).version)
      (parseVersion version) = true ∧
    (decode "hello" { e := [Token.str "1.3.0"], a := [], p := none } 0 =
      Except.error { actual := (envelopeDecode [Token.str "1.3.0"]).version,
                     expected := version, raw := jsSubstr "hello" 250 }
     ∧ (∀ (a' : List (List Token)) (p' : Option (List (List Token))),
         decode "hello" { e := [Token.str "1.3.0"], a := a', p := p' } 0 =
           decode "hello" { e := [Token.str "1.3.0"], a := [], p := none } 0)
     ∧ (∀ P, decode "hello" { e := [Token.str "1.3.0"], a := [], p := none } 0 ≠
         Except.ok P)) :=
  ⟨by decide,
   c4_version_mismatch_fatal "hello" { e := [Token.str "1.3.0"], a := [], p := none } 0
     (by decide)⟩

/-- C5: a token whose event-type code has no registered handler is
skipped: the dispatcher leaves the payload untouched for it, it
contributes to no bucket's trace, and `decode` never raises on account of
token content — whenever the version gate passes, `decode` returns a
payload. -/
theorem c5_unknown_code_skipped :
    (∀ (rawLen : Nat) (P : DecodedPayload) (entry : List Token),
      decodeEntry rawLen entry = none → dispatchStep rawLen P entry = P)
    ∧ (∀ (entry : List Token) (c : Int) (rawLen : Nat),
      entryCode entry = some c → eventRoute c = none →
      decodeEntry rawLen entry = none)
    ∧ (∀ (rawLen : Nat) (entry : List Token) (ts1 ts2 : List (List Token)) (b : Bucket),
      decodeEntry rawLen entry = none →
      bucketTrace rawLen (ts1 ++ entry :: ts2) b = bucketTrace rawLen (ts1 ++ ts2) b)
    ∧ (∀ (input : String) (json : Payload) (now : Int),
      versionMismatch (parseVersion (envelopeDecode json.e).version)
        (parseVersion version) = false →
      ∃ P, decode input json now = Except.ok P) := by
  refine ⟨?_, ?_, ?_, ?_⟩
  · intro rawLen P entry h
    simp [dispatchStep, h]
  · intro entry c rawLen hc hr
    simp [decodeEntry, hc, hr]
  · intro rawLen entry ts1 ts2 b h
    simp only [bucketTrace, List.filterMap_append, List.filterMap_cons, h,
      Option.none_bind]
  · intro input json now h
    refine ⟨{ timestamp := now, envelope := envelopeDecode json.e,
              buckets := fun b =>
                extendBucket none (bucketTrace input.length (mergedOf json) b) }, ?_⟩
    rw [decode_spec, if_neg (by simp [h])]

/-- C5 (witness): a token with event-type code 21 (a real `Event` enum
value, `Page`, that the `switch` has no case for) is skipped: it decodes
to nothing, the dispatcher leaves a payload unchanged on it, it leaves
every trace unchanged, and a well-versioned payload containing only that
token still decodes successfully. -/
theorem c5_unknown_code_skipped_witness :
    decodeEntry 5 [Token.num (some 0), Token.num (some 21)] = none ∧
    dispatchStep 5 { timestamp := 0, envelope := envelopeDecode [], buckets := fun _ => none }
        [Token.num (some 0), Token.num (some 21)] =
      { timestamp := 0, envelope := envelopeDecode [], buckets := fun _ => none } ∧
    bucketTrace 5 ([] ++ [Token.num (some 0), Token.num (some 21)] :: []) Bucket.pointer =
      bucketTrace 5 ([] ++ []) Bucket.pointer ∧
    versionMismatch
      (parseVersion (envelopeDecode [Token.str "1.2.0"]).version)
      (parseVersion version) = false ∧
    (∃ P, decode "x" { e := [Token.str "1.2.0"],
                       a := [[Token.num (some 0), Token.num (some 21)]],
                       p := none } 0 =
      Except.ok P) :=
  ⟨by decide,
   c5_unknown_code_skipped.1 5 _ _ (by decide),
   c5_unknown_code_skipped.2.2.1 5 _ [] [] Bucket.pointer (by decide),
   by decide,
   c5_unknown_code_skipped.2.2.2 "x" _ 0 (by decide)⟩

/-- A bucket's trace is empty exactly when no token routes to it. -/
theorem bucketTrace_eq_nil_iff (rawLen : Nat) (ts : List (List Token)) (b : Bucket) :
    bucketTrace rawLen ts b = [] ↔
      ∀ entry ∈ ts, ∀ r, decodeEntry rawLen entry = some r → r.1 ≠ b := by
  simp only [bucketTrace, List.filterMap_eq_nil_iff]
  constructor
  · intro h entry hm r hr hb
    have hnone := h entry hm
    rw [hr] at hnone
    simp only [Option.some_bind] at hnone
    rw [if_pos hb] at hnone
    exact Option.noConfusion hnone
  · intro h entry hm
    cases hr : decodeEntry rawLen entry with
    | none => simp
    | some r =>
      simp only [Option.some_bind]
      rw [if_neg (h entry hm r hr)]

/-- Any event that `decodeEntry` routes to the metric bucket carries
`TotalBytes = rawLen` in its data map. -/
theorem decodeEntry_metric_totalBytes (rawLen : Nat) (entry : List Token)
    (ev : DecodedEvent)
    (h : decodeEntry rawLen entry = some (Bucket.metric, ev)) :
    getKey Metric.TotalBytes ev.data = some (some (rawLen : Int)) := by
  cases hc : entryCode entry with
  | none => simp [decodeEntry, hc] at h
  | some c =>
    cases hr : eventRoute c with
    | none => simp [decodeEntry, hc, hr] at h
    | some r =>
      obtain ⟨cat, b⟩ := r
      simp only [decodeEntry, hc, hr] at h
      by_cases hb : b = Bucket.metric
      · subst hb
        rw [if_pos rfl] at h
        have hev : ({ categoryDecode cat entry with
            data := setKey Metric.TotalBytes (some (rawLen : Int))
              (categoryDecode cat entry).data } : DecodedEvent) = ev :=
          congrArg Prod.snd (Option.some.inj h)
        rw [← hev]
        exact getKey_setKey Metric.TotalBytes (some (rawLen : Int)) _
      · rw [if_neg hb] at h
        exact absurd (congrArg Prod.fst (Option.some.inj h)) hb

/-- C8: for a successfully decoded payload, a bucket is present iff at
least one token of its category occurred (equivalently, iff its dispatch
trace over the merged sequence is non-empty); a present bucket is never
the empty sequence, and its contents are exactly the events of its
category in post-merge arrival order. -/
theorem c8_bucket_presence :
    ∀ (input : String) (json : Payload) (now : Int) (P : DecodedPayload),
      decode input json now = Except.ok P →
      ∀ b : Bucket,
        (P.buckets b = none ↔
          bucketTrace input.length (mergedOf json) b = [])
        ∧ (P.buckets b = none ↔
          ∀ entry ∈ encodedOf json, ∀ r,
            decodeEntry input.length entry = some r → r.1 ≠ b)
        ∧ (∀ l, P.buckets b = some l →
          l ≠ [] ∧ l = bucketTrace input.length (mergedOf json) b) := by
  intro input json now P hP b
  rw [decode_spec] at hP
  by_cases h : versionMismatch (parseVersion (envelopeDecode json.e).version)
      (parseVersion version) = true
  · rw [if_pos h] at hP
    exact absurd hP (by simp)
  · rw [if_neg h] at hP
    injection hP with hP
    subst hP
    simp only
    have hmem : ∀ entry, entry ∈ mergedOf json ↔ entry ∈ encodedOf json :=
      mem_stableSort sortLe (encodedOf json)
    cases htr : bucketTrace input.length (mergedOf json) b with
    | nil =>
      rw [extendBucket_none_nil]
      refine ⟨by simp, ?_, by simp⟩
      constructor
      · intro _ entry hm r hr
        exact (bucketTrace_eq_nil_iff input.length (mergedOf json) b).mp htr
          entry ((hmem entry).mpr hm) r hr
      · intro _
        rfl
    | cons e tr =>
      rw [extendBucket_none_cons]
      refine ⟨by simp, ?_, ?_⟩
      · constructor
        · intro hc
          exact Option.noConfusion hc
        · intro hall
          have : bucketTrace input.length (mergedOf json) b = [] :=
            (bucketTrace_eq_nil_iff input.length (mergedOf json) b).mpr
              (fun entry hm r hr => hall entry ((hmem entry).mp hm) r hr)
          rw [htr] at this
          exact List.noConfusion this
      · intro l hl
        injection hl with hl
        subst hl
        exact ⟨by simp, rfl⟩

/-- C8 (witness): applied to `json8` (one scroll token): the scroll bucket
is present and non-empty, the metric bucket is absent. -/
theorem c8_bucket_presence_witness :
    decode "x" json8 0 = Except.ok payload8 ∧
    payload8.buckets Bucket.scroll ≠ none ∧
    payload8.buckets Bucket.metric = none ∧
    ((payload8.buckets Bucket.scroll = none ↔
        bucketTrace 1 (mergedOf json8) Bucket.scroll = [])
      ∧ (payload8.buckets Bucket.scroll = none ↔
        ∀ entry ∈ encodedOf json8, ∀ r,
          decodeEntry 1 entry = some r → r.1 ≠ Bucket.scroll)
      ∧ (∀ l, payload8.buckets Bucket.scroll = some l →
        l ≠ [] ∧ l = bucketTrace 1 (mergedOf json8) Bucket.scroll)) :=
  ⟨rfl, by decide, by decide,
   c8_bucket_presence "x" json8 0 payload8 rfl Bucket.scroll⟩

/-- C6: every metric event in a successfully decoded payload carries
`TotalBytes` equal to the character length of the raw input string of
that decode call — whatever value the producer transmitted — and hence
any two metric events of one payload carry the identical value. -/
theorem c6_metric_total_bytes :
    ∀ (input : String) (json : Payload) (now : Int) (P : DecodedPayload)
      (l : List DecodedEvent),
      decode input json now = Except.ok P →
      P.buckets Bucket.metric = some l →
      (∀ ev ∈ l, getKey Metric.TotalBytes ev.data = some (some (input.length : Int)))
      ∧ (∀ ev1 ∈ l, ∀ ev2 ∈ l,
          getKey Metric.TotalBytes ev1.data = getKey Metric.TotalBytes ev2.data) := by
  intro input json now P l hP hl
  have hmem : ∀ ev ∈ l, getKey Metric.TotalBytes ev.data =
      some (some (input.length : Int)) := by
    intro ev hev
    rw [decode_spec] at hP
    by_cases h : versionMismatch (parseVersion (envelopeDecode json.e).version)
        (parseVersion version) = true
    · rw [if_pos h] at hP
      exact absurd hP (by simp)
    · rw [if_neg h] at hP
      injection hP with hP
      subst hP
      simp only at hl
      cases htr : bucketTrace input.length (mergedOf json) Bucket.metric with
      | nil =>
        rw [htr, extendBucket_none_nil] at hl
        exact absurd hl (by simp)
      | cons e tr =>
        rw [htr, extendBucket_none_cons] at hl
        injection hl with hl
        subst hl
        rw [← htr] at hev
        obtain ⟨entry, hin, hde⟩ := List.mem_filterMap.mp hev
        cases hd : decodeEntry input.length entry with
        | none => rw [hd] at hde; exact absurd hde (by simp)
        | some r =>
          rw [hd] at hde
          simp only [Option.some_bind] at hde
          by_cases hb : r.1 = Bucket.metric
          · rw [if_pos hb] at hde
            injection hde with hde
            subst hde
            obtain ⟨b', ev'⟩ := r
            simp only at hb
            subst hb
            exact decodeEntry_metric_totalBytes input.length entry _ hd
          · rw [if_neg hb] at hde
            exact absurd hde (by simp)
  refine ⟨hmem, ?_⟩
  intro ev1 h1 ev2 h2
  rw [hmem ev1 h1, hmem ev2 h2]

/-- C6 (witness): both metric events of `json6` (one of which transmitted
`TotalBytes = 999`) end up carrying `TotalBytes = 5`, the length of the
raw input `"hello"`. -/
theorem c6_metric_total_bytes_witness :
    decode "hello" json6 0 = Except.ok payload6 ∧
    payload6.buckets Bucket.metric =
      some [ { time := some 3, source := Category.data,
               fields := [Token.num (some 2), Token.num (some 999)],
               data := [(2, some 5)] },
             { time := some 7, source := Category.data,
               fields := [], data := [(2, some 5)] } ] ∧
    ((∀ ev ∈ [ ({ time := some 3, source := Category.data,
                  fields := [Token.num (some 2), Token.num (some 999)],
                  data := [(2, some 5)] } : DecodedEvent),
               { time := some 7, source := Category.data,
                 fields := [], data := [(2, some 5)] } ],
        getKey Metric.TotalBytes ev.data = some (some ((5 : Nat) : Int)))
      ∧ (∀ ev1 ∈ [ ({ time := some 3, source := Category.data,
                      fields := [Token.num (some 2), Token.num (some 999)],
                      data := [(2, some 5)] } : DecodedEvent),
                   { time := some 7, source := Category.data,
                     fields := [], data := [(2, some 5)] } ],
         ∀ ev2 ∈ [ ({ time := some 3, source := Category.data,
                      fields := [Token.num (some 2), Token.num (some 999)],
                      data := [(2, some 5)] } : DecodedEvent),
                   { time := some 7, source := Category.data,
                     fields := [], data := [(2, some 5)] } ],
          getKey Metric.TotalBytes ev1.data = getKey Metric.TotalBytes ev2.data)) :=
  ⟨rfl, by decide,
   c6_metric_total_bytes "hello" json6 0 payload6 _ rfl (by decide)⟩

theorem eventRoute_of_mem_pointerCodes :
    ∀ c ∈ pointerCodes, eventRoute c = some (Category.interaction, Bucket.pointer) := by
  intro c h
  fin_cases h <;> decide

/-- C7 (counterexample): the `pointer` bucket is fed by nine — not
eight — distinct pointer/touch event-type codes: MouseDown, MouseUp,
MouseMove, MouseWheel, DoubleClick, TouchStart, TouchCancel, TouchEnd
and TouchMove all route to it. -/
theorem c7_counterexample :
    pointerCodes.length = 9 ∧ pointerCodes.Nodup ∧
    eventRoute Event.MouseDown = some (Category.interaction, Bucket.pointer) ∧
    eventRoute Event.MouseUp = some (Category.interaction, Bucket.pointer) ∧
    eventRoute Event.MouseMove = some (Category.interaction, Bucket.pointer) ∧
    eventRoute Event.MouseWheel = some (Category.interaction, Bucket.pointer) ∧
    eventRoute Event.DoubleClick = some (Category.interaction, Bucket.pointer) ∧
    eventRoute Event.TouchStart = some (Category.interaction, Bucket.pointer) ∧
    eventRoute Event.TouchCancel = some (Category.interaction, Bucket.pointer) ∧
    eventRoute Event.TouchEnd = some (Category.interaction, Bucket.pointer) ∧
    eventRoute Event.TouchMove = some (Category.interaction, Bucket.pointer) := by
  decide

/-- C7 (amended): exactly nine distinct pointer/touch codes map to the
`pointer` bucket — a code routes to `pointer` iff it is one of the nine —
and every token carrying such a code is decoded by the interaction
decoder and appended to `pointer`; both the DOM-discovery and
DOM-mutation codes (and only they) route to the single `dom` bucket via
the layout decoder. -/
theorem c7_pointer_dom_routing :
    (∀ c : Int, (∃ cat, eventRoute c = some (cat, Bucket.pointer)) ↔ c ∈ pointerCodes)
    ∧ pointerCodes.length = 9 ∧ pointerCodes.Nodup
    ∧ (∀ c ∈ pointerCodes, eventRoute c = some (Category.interaction, Bucket.pointer))
    ∧ (∀ (rawLen : Nat) (P : DecodedPayload) (entry : List Token) (c : Int),
        entryCode entry = some c → c ∈ pointerCodes →
        dispatchStep rawLen P entry =
          pushBucket P Bucket.pointer (interactionDecode entry))
    ∧ (∀ c : Int, (∃ cat, eventRoute c = some (cat, Bucket.dom)) ↔
        (c = Event.Discover ∨ c = Event.Mutation))
    ∧ eventRoute Event.Discover = some (Category.layout, Bucket.dom)
    ∧ eventRoute Event.Mutation = some (Category.layout, Bucket.dom) := by
  refine ⟨?_, by decide, by decide, eventRoute_of_mem_pointerCodes, ?_, ?_, by decide, by decide⟩
  · intro c
    constructor
    · rintro ⟨cat, hcat⟩
      simp only [eventRoute] at hcat
      obtain ⟨a, hfind, ha2⟩ := Option.map_eq_some'.mp hcat
      have hmem := List.mem_of_find?_eq_some hfind
      have heq : a.1 = c := by
        have hpa := List.find?_some hfind
        simpa using hpa
      have hall : ∀ x ∈ eventRouteTable, x.2.2 = Bucket.pointer → x.1 ∈ pointerCodes := by
        decide
      have hb : a.2.2 = Bucket.pointer := by rw [ha2]
      rw [← heq]
      exact hall a hmem hb
    · intro hmem
      exact ⟨Category.interaction, eventRoute_of_mem_pointerCodes c hmem⟩
  · intro rawLen P entry c hc hmem
    have hroute := eventRoute_of_mem_pointerCodes c hmem
    simp only [dispatchStep, decodeEntry, hc, hroute]
    rfl
  · intro c
    constructor
    · rintro ⟨cat, hcat⟩
      simp only [eventRoute] at hcat
      obtain ⟨a, hfind, ha2⟩ := Option.map_eq_some'.mp hcat
      have hmem := List.mem_of_find?_eq_some hfind
      have heq : a.1 = c := by
        have hpa := List.find?_some hfind
        simpa using hpa
      have hall : ∀ x ∈ eventRouteTable, x.2.2 = Bucket.dom →
          (x.1 = Event.Discover ∨ x.1 = Event.Mutation) := by
        decide
      have hb : a.2.2 = Bucket.dom := by rw [ha2]
      rw [← heq]
      exact hall a hmem hb
    · rintro (rfl | rfl)
      · exact ⟨Category.layout, by decide⟩
      · exact ⟨Category.layout, by decide⟩

/-- C7 (witness): the dispatch equation applied to a concrete MouseDown
token. -/
theorem c7_pointer_dom_routing_witness :
    entryCode [Token.num (some 9), Token.num (some 12)] = some 12 ∧
    (12 : Int) ∈ pointerCodes ∧
    dispatchStep 3 { timestamp := 0, envelope := envelopeDecode [], buckets := fun _ => none }
        [Token.num (some 9), Token.num (some 12)] =
      pushBucket { timestamp := 0, envelope := envelopeDecode [], buckets := fun _ => none }
        Bucket.pointer (interactionDecode [Token.num (some 9), Token.num (some 12)]) :=
  ⟨by decide, by decide,
   c7_pointer_dom_routing.2.2.2.2.1 3 _ [Token.num (some 9), Token.num (some 12)] 12
     (by decide) (by decide)⟩

/-- C3: for every payload whose tokens carry numeric timestamps, the
merged sequence the dispatcher processes is a stable ascending sort by
timestamp of `a ++ p` when `p` is present and of `a` alone otherwise: it
is a permutation of the concatenation, it is ascending by timestamp, and
every timestamp class keeps its concatenation order (so primary-channel
ties precede secondary-channel ties and in-channel order is preserved). -/
theorem c3_merge_stable_sort :
    ∀ json : Payload,
      (∀ e ∈ encodedOf json, (tokenNum e 0).isSome = true) →
      (mergedOf json).Perm (encodedOf json)
      ∧ (mergedOf json).Pairwise tsLe
      ∧ (∀ t : Int,
          (mergedOf json).filter (fun e => decide (tokenNum e 0 = some t)) =
            (encodedOf json).filter (fun e => decide (tokenNum e 0 = some t)))
      ∧ (json.p = none → encodedOf json = json.a)
      ∧ (∀ q, json.p = some q → encodedOf json = json.a ++ q) := by
  intro json h
  refine ⟨stableSort_perm sortLe (encodedOf json), pairwise_stableSort h,
    fun t => filter_stableSort t h, ?_, ?_⟩
  · intro hp
    simp [encodedOf, hp]
  · intro q hq
    simp [encodedOf, hq]

/-- C3 (witness): the merge properties applied to `json3`; in particular
the merged order is `[a-time-3, p-time-3, a-time-5]` — the primary
channel's time-3 event precedes the secondary channel's. -/
theorem c3_merge_stable_sort_witness :
    (∀ e ∈ encodedOf json3, (tokenNum e 0).isSome = true) ∧
    mergedOf json3 =
      [[Token.num (some 3), Token.num (some 9)],
       [Token.num (some 3), Token.num (some 10)],
       [Token.num (some 5), Token.num (some 8)]] ∧
    ((mergedOf json3).Perm (encodedOf json3)
      ∧ (mergedOf json3).Pairwise tsLe
      ∧ (∀ t : Int,
          (mergedOf json3).filter (fun e => decide (tokenNum e 0 = some t)) =
            (encodedOf json3).filter (fun e => decide (tokenNum e 0 = some t)))
      ∧ (json3.p = none → encodedOf json3 = json3.a)
      ∧ (∀ q, json3.p = some q → encodedOf json3 = json3.a ++ q)) :=
  ⟨by decide, by decide, c3_merge_stable_sort json3 (by decide)⟩

/-- C9 (counterexample): `decode` is not a pure function of its argument
and the running version alone: it stamps the output with the `Date.now()`
reading, so two runs over the identical input at clock readings 0 and 1
return different outputs (their `timestamp` fields differ). -/
theorem c9_counterexample : decode "x" json9 0 ≠ decode "x" json9 1 := by
  intro h
  have h0 : decode "x" json9 0 =
      Except.ok { timestamp := 0, envelope := envelopeDecode json9.e,
                  buckets := fun _ => none } := rfl
  have h1 : decode "x" json9 1 =
      Except.ok { timestamp := 1, envelope := envelopeDecode json9.e,
                  buckets := fun _ => none } := rfl
  rw [h0, h1] at h
  injection h with h2
  have h3 := congrArg DecodedPayload.timestamp h2
  simp at h3

/-- C9 (amended): `decode` is deterministic given its input, the built-in
running version and the clock reading, and the clock reading affects only
the output's `timestamp` field: with the clock stripped, two runs at any
two clock readings agree, and a successful run's `timestamp` is exactly
the clock reading while its envelope is determined by the input. -/
theorem c9_deterministic_up_to_clock :
    ∀ (input : String) (json : Payload) (now1 now2 : Int),
      stripTime (decode input json now1) = stripTime (decode input json now2)
      ∧ (∀ P, decode input json now1 = Except.ok P →
          P.timestamp = now1 ∧ P.envelope = envelopeDecode json.e) := by
  intro input json n1 n2
  constructor
  · rw [decode_spec, decode_spec]
    by_cases h : versionMismatch (parseVersion (envelopeDecode json.e).version)
        (parseVersion version) = true
    · rw [if_pos h, if_pos h]
    · rw [if_neg h, if_neg h]
      rfl
  · intro P hP
    rw [decode_spec] at hP
    by_cases h : versionMismatch (parseVersion (envelopeDecode json.e).version)
        (parseVersion version) = true
    · rw [if_pos h] at hP
      exact absurd hP (by simp)
    · rw [if_neg h] at hP
      injection hP with hP
      subst hP
      exact ⟨rfl, rfl⟩

/-- C9 (witness): applied to `json9` at clock readings 3 and 4; a
successful run at 3 yields timestamp 3. -/
theorem c9_deterministic_up_to_clock_witness :
    stripTime (decode "x" json9 3) = stripTime (decode "x" json9 4) ∧
    decode "x" json9 3 =
      Except.ok { timestamp := 3, envelope := envelopeDecode json9.e,
                  buckets := fun _ => none } ∧
    (({ timestamp := 3, envelope := envelopeDecode json9.e,
        buckets := fun _ => none } : DecodedPayload).timestamp = 3 ∧
     ({ timestamp := 3, envelope := envelopeDecode json9.e,
        buckets := fun _ => none } : DecodedPayload).envelope = envelopeDecode json9.e) :=
  ⟨(c9_deterministic_up_to_clock "x" json9 3 4).1, rfl,
   (c9_deterministic_up_to_clock "x" json9 3 4).2
     { timestamp := 3, envelope := envelopeDecode json9.e, buckets := fun _ => none } rfl⟩
